import Mathlib

/-!
# The `modified` clause of querydsl (`clause/modified/modified.go`)

A shallow embedding of `ModifiedProcessor` and `ModifiedSummary`, the two entry
points of the modification-date range clause, followed by the properties the
specification states about them.

Conventions of the embedding.

* A Go result pair `(elastic.Query, error)` is a pair
  `Option Query × Option GoError`: `none` is Go's `nil`.  `(string, error)` is
  `String × Option GoError`.
* `int64` bounds are `Int`; the clause performs no arithmetic on them.
* The blank `context.Context` parameter of both entry points is never read and
  is left out.
* `mapstructure.Decode` belongs to an external library; the decoder is a
  parameter `decode` returning either the filled `ModifiedArgs` or the error.
* Package `clauseutils` is declared outside `modified.go`.  Its `RangeType`
  constants and `DateToEpochMs` are parameters (`ClauseUtils`);
  `CreateRangeQuery` and a reference `DateToEpochMs` are modelled from the
  specification.
-/

namespace Modified

/-! ## Data model -/

/-- Go `error` values that can leave this clause, by origin: a value made by
`errors.New`, an error of the argument decoder, an error of the date
normalizer (which names the input it rejected). -/
inductive GoError where
  | errorString (text : String)
  | decodeError (detail : String)
  | parseError (input : String)
deriving DecidableEq, Repr

namespace errors

/-- Go `errors.New`. -/
def New (text : String) : GoError := GoError.errorString text

end errors

/-- The struct `ModifiedArgs` (modified.go, lines 29-32). -/
structure ModifiedArgs where
  From : String
  To : String
deriving DecidableEq, Repr

/-- What `modified.go` uses of package `clauseutils` without declaring it: the
zero value of `RangeType` (the initial value of `var rangetype`), the three
`RangeType` constants, and the date normalizer `DateToEpochMs`. -/
structure ClauseUtils (RangeType : Type) where
  zeroRangeType : RangeType
  LowerOnly : RangeType
  UpperOnly : RangeType
  Both : RangeType
  DateToEpochMs : String → Except GoError Int

/-- Modelled from the spec: the result of `clauseutils.CreateRangeQuery`, which
is declared outside `modified.go`.  The specification describes it as a
descriptor holding the field name, the range kind and the bounds that were
handed over. -/
structure RangeQuery (RangeType : Type) where
  field : String
  rangetype : RangeType
  lower : Int
  upper : Int
deriving DecidableEq, Repr

/-- Modelled from the spec: `clauseutils.CreateRangeQuery`, declared outside
`modified.go`; it records its four arguments in the descriptor. -/
def CreateRangeQuery {RangeType : Type} (field : String) (rangetype : RangeType)
    (lower upper : Int) : RangeQuery RangeType :=
  { field := field, rangetype := rangetype, lower := lower, upper := upper }

/-! ## The query-building entry point -/

section Processor

variable {RangeType : Type} [DecidableEq RangeType] {Args : Type}

/-- Lines 56-68 of `ModifiedProcessor`: the `To` block and the final return.
`rangetype` and `lower` are the values of the locals `rangetype` and `from`
on entry; `calls` lists the strings already handed to `DateToEpochMs`. -/
def toBlock (cu : ClauseUtils RangeType) (realArgs : ModifiedArgs)
    (rangetype : RangeType) (lower : Int) (calls : List String) :
    (Option (RangeQuery RangeType) × Option GoError) × List String :=
  if realArgs.To ≠ "" then
    let rangetype := if rangetype = cu.LowerOnly then cu.Both else cu.UpperOnly
    match cu.DateToEpochMs realArgs.To with
    | .error err => ((none, some err), calls ++ [realArgs.To])
    | .ok upper =>
      ((some (CreateRangeQuery "dateModified" rangetype lower upper), none),
        calls ++ [realArgs.To])
  else
    ((some (CreateRangeQuery "dateModified" rangetype lower 0), none), calls)

/-- The function `ModifiedProcessor` (lines 34-69), returning next to its Go
result the list of strings it handed to `DateToEpochMs`, in call order. -/
def ModifiedProcessorTraced (cu : ClauseUtils RangeType)
    (decode : Args → Except GoError ModifiedArgs) (args : Args) :
    (Option (RangeQuery RangeType) × Option GoError) × List String :=
  match decode args with
  | .error err => ((none, some err), [])
  | .ok realArgs =>
    if realArgs.From = "" ∧ realArgs.To = "" then
      ((none, some (errors.New "Neither from nor to was passed, cannot create clause.")), [])
    else if realArgs.From ≠ "" then
      match cu.DateToEpochMs realArgs.From with
      | .error err => ((none, some err), [realArgs.From])
      | .ok lower => toBlock cu realArgs cu.LowerOnly lower [realArgs.From]
    else
      toBlock cu realArgs cu.zeroRangeType 0 []

/-- The Go result `(elastic.Query, error)` of `ModifiedProcessor`. -/
def ModifiedProcessor (cu : ClauseUtils RangeType)
    (decode : Args → Except GoError ModifiedArgs) (args : Args) :
    Option (RangeQuery RangeType) × Option GoError :=
  (ModifiedProcessorTraced cu decode args).1

/-- The strings `ModifiedProcessor` passes to `DateToEpochMs`, in call order. -/
def normalizerCalls (cu : ClauseUtils RangeType)
    (decode : Args → Except GoError ModifiedArgs) (args : Args) : List String :=
  (ModifiedProcessorTraced cu decode args).2

end Processor

/-! ## The summary entry point -/

/-- The function `ModifiedSummary` (lines 71-83).  `fmt.Sprintf` with the
format `modified=%s--%s` and two string operands writes the operands verbatim
into the two holes. -/
def ModifiedSummary {Args : Type} (decode : Args → Except GoError ModifiedArgs)
    (args : Args) : String × Option GoError :=
  match decode args with
  | .error err => ("", some err)
  | .ok realArgs =>
    if realArgs.From = "" ∧ realArgs.To = "" then
      ("", some (errors.New "Neither from nor to was passed, cannot create clause."))
    else
      ("modified=" ++ realArgs.From ++ "--" ++ realArgs.To, none)

/-! ## The date normalizer, from the specification -/

namespace clauseutils

/-- Value of a decimal digit character. -/
def digitVal (c : Char) : Nat := c.toNat - 48

/-- Decimal value of a run of digit characters, most significant first. -/
def digitsValue (ds : List Char) : Nat :=
  ds.foldl (fun acc c => 10 * acc + digitVal c) 0

/-- Every character is one of `0` .. `9`. -/
def allDigits (ds : List Char) : Bool := ds.all Char.isDigit

/-- A non-empty run of digits, as a natural number. -/
def parseUnsigned (ds : List Char) : Option Nat :=
  if ds ≠ [] ∧ allDigits ds = true then some (digitsValue ds) else none

/-- The signed 64-bit range of a `NormalizedBound`. -/
def inInt64 (v : Int) : Bool :=
  decide (-9223372036854775808 ≤ v ∧ v ≤ 9223372036854775807)

/-- Modelled from the spec: shape 1 of the date normalizer (its body is
declared outside `modified.go`): a string made only of an optional leading
sign and digits is parsed as an integer, which must fit 64 signed bits. -/
def parseInt (cs : List Char) : Option Int :=
  let signed : Option Int :=
    match cs with
    | [] => none
    | c :: ds =>
      if c = '-' then (parseUnsigned ds).map (fun (n : Nat) => -(n : Int))
      else if c = '+' then (parseUnsigned ds).map (fun (n : Nat) => (n : Int))
      else (parseUnsigned (c :: ds)).map (fun (n : Nat) => (n : Int))
  signed.bind (fun v => if inInt64 v = true then some v else none)

/-- Gregorian leap-year rule. -/
def isLeapYear (y : Int) : Bool := decide (y % 4 = 0 ∧ (y % 100 ≠ 0 ∨ y % 400 = 0))

/-- Number of days of month `m` in year `y`. -/
def daysInMonth (y m : Int) : Int :=
  if m = 2 then (if isLeapYear y = true then 29 else 28)
  else if m = 4 ∨ m = 6 ∨ m = 9 ∨ m = 11 then 30 else 31

/-- Number of leap years among the years `1 .. y`. -/
def leapsThrough (y : Int) : Int := y / 4 - y / 100 + y / 400

/-- Days from 1970-01-01 to January 1st of year `y`. -/
def daysBeforeYear (y : Int) : Int :=
  365 * (y - 1970) + (leapsThrough (y - 1) - leapsThrough 1969)

/-- Days from January 1st of year `y` to the first day of month `m`. -/
def daysBeforeMonth (y m : Int) : Int :=
  ((List.range (m - 1).toNat).map (fun i => daysInMonth y ((i : Int) + 1))).sum

/-- Days from 1970-01-01 to the calendar date `y-m-d`. -/
def daysSinceEpoch (y m d : Int) : Int :=
  daysBeforeYear y + daysBeforeMonth y m + (d - 1)

/-- A fixed-width numeric field. -/
def field (ds : List Char) : Option Int := (parseUnsigned ds).map (fun (n : Nat) => (n : Int))

/-- Modelled from the spec: shape 2 of the date normalizer, exactly
`YYYY-MM-DD` with month and day in range; the result is the day number
counted from 1970-01-01. -/
def parseDate (cs : List Char) : Option Int :=
  match cs with
  | [y1, y2, y3, y4, s1, m1, m2, s2, d1, d2] =>
    if s1 = '-' ∧ s2 = '-' then
      match field [y1, y2, y3, y4], field [m1, m2], field [d1, d2] with
      | some y, some m, some d =>
        if 1 ≤ m ∧ m ≤ 12 ∧ 1 ≤ d ∧ d ≤ daysInMonth y m then some (daysSinceEpoch y m d)
        else none
      | _, _, _ => none
    else none
  | _ => none

/-- The wall-clock part `HH:MM:SS.mmm` of shape 3, in milliseconds since
midnight. -/
def parseClock (cs : List Char) : Option Int :=
  match cs with
  | [h1, h2, c1, m1, m2, c2, s1, s2, dot, f1, f2, f3] =>
    if c1 = ':' ∧ c2 = ':' ∧ dot = '.' then
      match field [h1, h2], field [m1, m2], field [s1, s2], field [f1, f2, f3] with
      | some h, some m, some s, some f =>
        if h ≤ 23 ∧ m ≤ 59 ∧ s ≤ 59 then some (((h * 60 + m) * 60 + s) * 1000 + f) else none
      | _, _, _, _ => none
    else none
  | _ => none

/-- The zone part of shape 3, the literal `Z` or a signed offset `±HH:MM`, in
milliseconds east of UTC. -/
def parseZone (cs : List Char) : Option Int :=
  match cs with
  | [z] => if z = 'Z' then some 0 else none
  | [sg, h1, h2, c, m1, m2] =>
    if (sg = '+' ∨ sg = '-') ∧ c = ':' then
      match field [h1, h2], field [m1, m2] with
      | some h, some m =>
        if h ≤ 23 ∧ m ≤ 59 then
          some ((if sg = '-' then -1 else 1) * ((h * 60 + m) * 60000))
        else none
      | _, _ => none
    else none
  | _ => none

/-- Modelled from the spec: shape 3 of the date normalizer,
`YYYY-MM-DDTHH:MM:SS.mmm<TZ>`: the wall-clock time at the given offset,
converted to UTC. -/
def parseTimestamp (cs : List Char) : Option Int :=
  match cs.drop 10 with
  | t :: rest =>
    if t = 'T' then
      match parseDate (cs.take 10), parseClock (rest.take 12), parseZone (rest.drop 12) with
      | some days, some clock, some offset => some (days * 86400000 + clock - offset)
      | _, _, _ => none
    else none
  | [] => none

/-- Modelled from the spec: `clauseutils.DateToEpochMs`, the date normalizer,
whose body is declared outside `modified.go`.  A string of one of the three
accepted shapes yields its epoch milliseconds; any other string fails with a
parse error naming the input. -/
def DateToEpochMs (date : String) : Except GoError Int :=
  match parseInt date.data with
  | some ms => .ok ms
  | none =>
    match parseDate date.data with
    | some days => .ok (days * 86400000)
    | none =>
      match parseTimestamp date.data with
      | some ms => .ok ms
      | none => .error (GoError.parseError date)

/-- The integer a signed decimal numeral denotes: `ds` are its digits, most
significant first, and `sign` is the optional sign in front of them. -/
def integerValue (sign ds : List Char) : Int :=
  if sign = ['-'] then -((Nat.ofDigits 10 (ds.reverse.map digitVal) : Nat) : Int)
  else ((Nat.ofDigits 10 (ds.reverse.map digitVal) : Nat) : Int)

end clauseutils

/-! ## Sample instances -/

/-- A declaration of the `clauseutils` constants in which the zero value of
`RangeType` is `UpperOnly`, together with the normalizer of the
specification. -/
def upperFirstUtils : ClauseUtils Nat :=
  { zeroRangeType := 0, UpperOnly := 0, LowerOnly := 1, Both := 2,
    DateToEpochMs := clauseutils.DateToEpochMs }

/-- A declaration of the `clauseutils` constants in which the zero value of
`RangeType` is `LowerOnly`, together with the normalizer of the
specification. -/
def lowerFirstUtils : ClauseUtils Nat :=
  { zeroRangeType := 0, LowerOnly := 0, UpperOnly := 1, Both := 2,
    DateToEpochMs := clauseutils.DateToEpochMs }

/-- The decoder on argument bags that already have the shape of
`ModifiedArgs`: it never fails. -/
def decodeTyped (args : ModifiedArgs) : Except GoError ModifiedArgs := .ok args

/-- A decoder that rejects every argument bag, as `mapstructure.Decode` does
on a value of the wrong type. -/
def decodeFailing (args : ModifiedArgs) : Except GoError ModifiedArgs :=
  .error (GoError.decodeError ("expected type string: " ++ args.From))

/-! ## Evaluation lemmas -/

section Lemmas

variable {RangeType : Type} [DecidableEq RangeType] {Args : Type}

theorem traced_decode_error (cu : ClauseUtils RangeType)
    (decode : Args → Except GoError ModifiedArgs) (args : Args) (err : GoError)
    (hdec : decode args = .error err) :
    ModifiedProcessorTraced cu decode args = ((none, some err), []) := by
  simp [ModifiedProcessorTraced, hdec]

theorem traced_both_empty (cu : ClauseUtils RangeType)
    (decode : Args → Except GoError ModifiedArgs) (args : Args) (ra : ModifiedArgs)
    (hdec : decode args = .ok ra) (hF : ra.From = "") (hT : ra.To = "") :
    ModifiedProcessorTraced cu decode args =
      ((none, some (errors.New "Neither from nor to was passed, cannot create clause.")), []) := by
  simp [ModifiedProcessorTraced, hdec, hF, hT]

theorem traced_from_error (cu : ClauseUtils RangeType)
    (decode : Args → Except GoError ModifiedArgs) (args : Args) (ra : ModifiedArgs)
    (e : GoError) (hdec : decode args = .ok ra) (hF : ra.From ≠ "")
    (hn : cu.DateToEpochMs ra.From = .error e) :
    ModifiedProcessorTraced cu decode args = ((none, some e), [ra.From]) := by
  simp [ModifiedProcessorTraced, hdec, hF, hn]

theorem traced_from_only (cu : ClauseUtils RangeType)
    (decode : Args → Except GoError ModifiedArgs) (args : Args) (ra : ModifiedArgs)
    (a : Int) (hdec : decode args = .ok ra) (hF : ra.From ≠ "") (hT : ra.To = "")
    (hn : cu.DateToEpochMs ra.From = .ok a) :
    ModifiedProcessorTraced cu decode args =
      ((some (CreateRangeQuery "dateModified" cu.LowerOnly a 0), none), [ra.From]) := by
  simp [ModifiedProcessorTraced, toBlock, hdec, hF, hT, hn]

theorem traced_both_ok (cu : ClauseUtils RangeType)
    (decode : Args → Except GoError ModifiedArgs) (args : Args) (ra : ModifiedArgs)
    (a b : Int) (hdec : decode args = .ok ra) (hF : ra.From ≠ "") (hT : ra.To ≠ "")
    (hna : cu.DateToEpochMs ra.From = .ok a) (hnb : cu.DateToEpochMs ra.To = .ok b) :
    ModifiedProcessorTraced cu decode args =
      ((some (CreateRangeQuery "dateModified" cu.Both a b), none), [ra.From, ra.To]) := by
  simp [ModifiedProcessorTraced, toBlock, hdec, hF, hT, hna, hnb]

theorem traced_both_to_error (cu : ClauseUtils RangeType)
    (decode : Args → Except GoError ModifiedArgs) (args : Args) (ra : ModifiedArgs)
    (a : Int) (e : GoError) (hdec : decode args = .ok ra) (hF : ra.From ≠ "")
    (hT : ra.To ≠ "") (hna : cu.DateToEpochMs ra.From = .ok a)
    (hnb : cu.DateToEpochMs ra.To = .error e) :
    ModifiedProcessorTraced cu decode args = ((none, some e), [ra.From, ra.To]) := by
  simp [ModifiedProcessorTraced, toBlock, hdec, hF, hT, hna, hnb]

theorem traced_to_only (cu : ClauseUtils RangeType)
    (decode : Args → Except GoError ModifiedArgs) (args : Args) (ra : ModifiedArgs)
    (b : Int) (hdec : decode args = .ok ra) (hF : ra.From = "") (hT : ra.To ≠ "")
    (hn : cu.DateToEpochMs ra.To = .ok b) :
    ModifiedProcessorTraced cu decode args =
      ((some (CreateRangeQuery "dateModified"
          (if cu.zeroRangeType = cu.LowerOnly then cu.Both else cu.UpperOnly) 0 b), none),
        [ra.To]) := by
  simp [ModifiedProcessorTraced, toBlock, hdec, hF, hT, hn]

theorem traced_to_only_error (cu : ClauseUtils RangeType)
    (decode : Args → Except GoError ModifiedArgs) (args : Args) (ra : ModifiedArgs)
    (e : GoError) (hdec : decode args = .ok ra) (hF : ra.From = "") (hT : ra.To ≠ "")
    (hn : cu.DateToEpochMs ra.To = .error e) :
    ModifiedProcessorTraced cu decode args = ((none, some e), [ra.To]) := by
  simp [ModifiedProcessorTraced, toBlock, hdec, hF, hT, hn]

/-- Every query `ModifiedProcessor` returns comes from a decoded argument bag
with a bound supplied, is over the field `dateModified`, and carries for each
supplied bound the value the normalizer returned and 0 for a bound left out. -/
theorem query_inv (cu : ClauseUtils RangeType)
    (decode : Args → Except GoError ModifiedArgs) (args : Args)
    (q : RangeQuery RangeType) (hq : (ModifiedProcessor cu decode args).1 = some q) :
    ∃ ra, decode args = .ok ra ∧ (ra.From ≠ "" ∨ ra.To ≠ "") ∧
      q.field = "dateModified" ∧
      (ra.From ≠ "" → cu.DateToEpochMs ra.From = .ok q.lower) ∧
      (ra.From = "" → q.lower = 0) ∧
      (ra.To ≠ "" → cu.DateToEpochMs ra.To = .ok q.upper) ∧
      (ra.To = "" → q.upper = 0) ∧
      (ModifiedProcessor cu decode args).2 = none := by
  cases hdec : decode args with
  | error err => simp [ModifiedProcessor, traced_decode_error cu decode args err hdec] at hq
  | ok ra =>
    refine ⟨ra, rfl, ?_⟩
    by_cases hF : ra.From = "" <;> by_cases hT : ra.To = ""
    · simp [ModifiedProcessor, traced_both_empty cu decode args ra hdec hF hT] at hq
    · cases hn : cu.DateToEpochMs ra.To with
      | error e =>
        simp [ModifiedProcessor, traced_to_only_error cu decode args ra e hdec hF hT hn] at hq
      | ok b =>
        simp [ModifiedProcessor, traced_to_only cu decode args ra b hdec hF hT hn] at hq ⊢
        subst hq
        simp [CreateRangeQuery, hF, hT]
    · cases hn : cu.DateToEpochMs ra.From with
      | error e =>
        simp [ModifiedProcessor, traced_from_error cu decode args ra e hdec hF hn] at hq
      | ok a =>
        simp [ModifiedProcessor, traced_from_only cu decode args ra a hdec hF hT hn] at hq ⊢
        subst hq
        simp [CreateRangeQuery, hF, hT]
    · cases hna : cu.DateToEpochMs ra.From with
      | error e =>
        simp [ModifiedProcessor, traced_from_error cu decode args ra e hdec hF hna] at hq
      | ok a =>
        cases hnb : cu.DateToEpochMs ra.To with
        | error e =>
          simp [ModifiedProcessor,
            traced_both_to_error cu decode args ra a e hdec hF hT hna hnb] at hq
        | ok b =>
          simp [ModifiedProcessor,
            traced_both_ok cu decode args ra a b hdec hF hT hna hnb] at hq ⊢
          subst hq
          simp [CreateRangeQuery, hF, hT]

/-- The result of `ModifiedProcessor` is either a query and no error, or no
query and an error. -/
theorem result_shape (cu : ClauseUtils RangeType)
    (decode : Args → Except GoError ModifiedArgs) (args : Args) :
    (∃ q, ModifiedProcessor cu decode args = (some q, none)) ∨
      (∃ e, ModifiedProcessor cu decode args = (none, some e)) := by
  cases hdec : decode args with
  | error err =>
    exact Or.inr ⟨err, by rw [ModifiedProcessor, traced_decode_error cu decode args err hdec]⟩
  | ok ra =>
    by_cases hF : ra.From = "" <;> by_cases hT : ra.To = ""
    · exact Or.inr ⟨_, by
        rw [ModifiedProcessor, traced_both_empty cu decode args ra hdec hF hT]⟩
    · cases hn : cu.DateToEpochMs ra.To with
      | error e =>
        exact Or.inr ⟨e, by
          rw [ModifiedProcessor, traced_to_only_error cu decode args ra e hdec hF hT hn]⟩
      | ok b =>
        exact Or.inl ⟨_, by
          rw [ModifiedProcessor, traced_to_only cu decode args ra b hdec hF hT hn]⟩
    · cases hn : cu.DateToEpochMs ra.From with
      | error e =>
        exact Or.inr ⟨e, by
          rw [ModifiedProcessor, traced_from_error cu decode args ra e hdec hF hn]⟩
      | ok a =>
        exact Or.inl ⟨_, by
          rw [ModifiedProcessor, traced_from_only cu decode args ra a hdec hF hT hn]⟩
    · cases hna : cu.DateToEpochMs ra.From with
      | error e =>
        exact Or.inr ⟨e, by
          rw [ModifiedProcessor, traced_from_error cu decode args ra e hdec hF hna]⟩
      | ok a =>
        cases hnb : cu.DateToEpochMs ra.To with
        | error e =>
          exact Or.inr ⟨e, by
            rw [ModifiedProcessor,
              traced_both_to_error cu decode args ra a e hdec hF hT hna hnb]⟩
        | ok b =>
          exact Or.inl ⟨_, by
            rw [ModifiedProcessor, traced_both_ok cu decode args ra a b hdec hF hT hna hnb]⟩

theorem summary_ok {Args : Type} (decode : Args → Except GoError ModifiedArgs) (args : Args)
    (ra : ModifiedArgs) (hdec : decode args = .ok ra) (h : ra.From ≠ "" ∨ ra.To ≠ "") :
    ModifiedSummary decode args = ("modified=" ++ ra.From ++ "--" ++ ra.To, none) := by
  have hne : ¬ (ra.From = "" ∧ ra.To = "") := by
    rintro ⟨h1, h2⟩
    rcases h with h | h
    · exact h h1
    · exact h h2
  simp [ModifiedSummary, hdec, hne]

end Lemmas

/-! ## Lemmas on the numeric shape of the normalizer -/

namespace clauseutils

theorem digitsValue_append (ds : List Char) (c : Char) :
    digitsValue (ds ++ [c]) = 10 * digitsValue ds + digitVal c := by
  simp [digitsValue, List.foldl_append]

theorem digitsValue_eq_ofDigits (ds : List Char) :
    digitsValue ds = Nat.ofDigits 10 (ds.reverse.map digitVal) := by
  induction ds using List.reverseRecOn with
  | nil => simp [digitsValue]
  | append_singleton ds c ih =>
    rw [digitsValue_append, ih]
    simp [Nat.ofDigits_cons]
    ring

theorem parseUnsigned_digits (ds : List Char) (hne : ds ≠ [])
    (hdig : ∀ c ∈ ds, c.isDigit = true) :
    parseUnsigned ds = some (Nat.ofDigits 10 (ds.reverse.map digitVal)) := by
  have hall : allDigits ds = true := by
    simp [allDigits, List.all_eq_true]
    exact hdig
  simp [parseUnsigned, hne, hall, digitsValue_eq_ofDigits]

theorem inInt64_of_range (v : Int)
    (hrange : -9223372036854775808 ≤ v ∧ v ≤ 9223372036854775807) : inInt64 v = true := by
  unfold inInt64
  exact decide_eq_true hrange

theorem digit_ne_minus (c : Char) (hc : c.isDigit = true) : c ≠ '-' := by
  intro h
  rw [h] at hc
  exact Bool.noConfusion hc

theorem digit_ne_plus (c : Char) (hc : c.isDigit = true) : c ≠ '+' := by
  intro h
  rw [h] at hc
  exact Bool.noConfusion hc

theorem parseInt_numeric (sign ds : List Char)
    (hsign : sign = [] ∨ sign = ['+'] ∨ sign = ['-'])
    (hne : ds ≠ []) (hdig : ∀ c ∈ ds, c.isDigit = true)
    (hrange : -9223372036854775808 ≤ integerValue sign ds ∧
      integerValue sign ds ≤ 9223372036854775807) :
    parseInt (sign ++ ds) = some (integerValue sign ds) := by
  have hu := parseUnsigned_digits ds hne hdig
  have hin := inInt64_of_range _ hrange
  rcases hsign with h | h | h
  · subst h
    cases ds with
    | nil => exact absurd rfl hne
    | cons c ds =>
      have hc : c.isDigit = true := hdig c (List.mem_cons_self _ _)
      have h1 : c ≠ '-' := digit_ne_minus c hc
      have h2 : c ≠ '+' := digit_ne_plus c hc
      have hv : integerValue [] (c :: ds) =
          ((Nat.ofDigits 10 ((c :: ds).reverse.map digitVal) : Nat) : Int) := by
        simp [integerValue]
      rw [hv] at hin ⊢
      simp only [parseInt, List.nil_append, if_neg h1, if_neg h2, hu, Option.map_some',
        Option.some_bind, hin, if_true]
  · subst h
    have hv : integerValue ['+'] ds =
        ((Nat.ofDigits 10 (ds.reverse.map digitVal) : Nat) : Int) := by
      simp [integerValue]
    rw [hv] at hin ⊢
    have h1 : ('+' : Char) ≠ '-' := by decide
    simp only [parseInt, List.singleton_append, if_neg h1, if_true, hu, Option.map_some',
      Option.some_bind, hin]
  · subst h
    have hv : integerValue ['-'] ds =
        -((Nat.ofDigits 10 (ds.reverse.map digitVal) : Nat) : Int) := by
      simp [integerValue]
    rw [hv] at hin ⊢
    simp only [parseInt, List.singleton_append, if_true, hu, Option.map_some',
      Option.some_bind, hin]

end clauseutils

/-! ## Properties of the entry points -/

section Claims

variable {RangeType : Type} [DecidableEq RangeType] {Args : Type}

/-- C1 (as the code has it): when the argument bag decodes to two empty
strings, `ModifiedProcessor` returns no query and an error, `ModifiedSummary`
returns the empty string and an error, the two errors are equal, and the error
is the one made by `errors.New` from the text
"Neither from nor to was passed, cannot create clause.". -/
theorem both_empty_rejected (cu : ClauseUtils RangeType)
    (decode : Args → Except GoError ModifiedArgs) (args : Args) (ra : ModifiedArgs)
    (hdec : decode args = .ok ra) (hF : ra.From = "") (hT : ra.To = "") :
    ModifiedProcessor cu decode args =
        (none, some (errors.New "Neither from nor to was passed, cannot create clause.")) ∧
      ModifiedSummary decode args =
        ("", some (errors.New "Neither from nor to was passed, cannot create clause.")) ∧
      (ModifiedProcessor cu decode args).2 = (ModifiedSummary decode args).2 := by
  have hp : ModifiedProcessor cu decode args =
      (none, some (errors.New "Neither from nor to was passed, cannot create clause.")) := by
    simp [ModifiedProcessor, traced_both_empty cu decode args ra hdec hF hT]
  have hs : ModifiedSummary decode args =
      ("", some (errors.New "Neither from nor to was passed, cannot create clause.")) := by
    simp [ModifiedSummary, hdec, hF, hT]
  exact ⟨hp, hs, by rw [hp, hs]⟩

/-- C2: when only `To` is supplied, the normalizer returns `b` for it, and the
zero value of `RangeType` is not `LowerOnly`, `ModifiedProcessor` succeeds with
the range query of kind `UpperOnly`, lower bound 0 and upper bound `b`. -/
theorem to_only_upper (cu : ClauseUtils RangeType)
    (decode : Args → Except GoError ModifiedArgs) (args : Args) (ra : ModifiedArgs)
    (b : Int) (hdec : decode args = .ok ra) (hF : ra.From = "") (hT : ra.To ≠ "")
    (hn : cu.DateToEpochMs ra.To = .ok b) (hz : cu.zeroRangeType ≠ cu.LowerOnly) :
    ModifiedProcessor cu decode args =
      (some (CreateRangeQuery "dateModified" cu.UpperOnly 0 b), none) := by
  simp [ModifiedProcessor, traced_to_only cu decode args ra b hdec hF hT hn, hz]

/-- The caveat of C2 from the other side: under a declaration where the zero
value of `RangeType` is `LowerOnly`, a clause with only `To` supplied is built
with kind `Both` and lower bound 0. -/
theorem to_only_when_zero_is_lower (cu : ClauseUtils RangeType)
    (decode : Args → Except GoError ModifiedArgs) (args : Args) (ra : ModifiedArgs)
    (b : Int) (hdec : decode args = .ok ra) (hF : ra.From = "") (hT : ra.To ≠ "")
    (hn : cu.DateToEpochMs ra.To = .ok b) (hz : cu.zeroRangeType = cu.LowerOnly) :
    ModifiedProcessor cu decode args =
      (some (CreateRangeQuery "dateModified" cu.Both 0 b), none) := by
  simp [ModifiedProcessor, traced_to_only cu decode args ra b hdec hF hT hn, hz]

/-- C3: when only `From` is supplied and the normalizer returns `a` for it,
`ModifiedProcessor` succeeds with the range query of kind `LowerOnly`, lower
bound `a` and upper bound 0, and the only string handed to the normalizer is
`From`. -/
theorem from_only_lower (cu : ClauseUtils RangeType)
    (decode : Args → Except GoError ModifiedArgs) (args : Args) (ra : ModifiedArgs)
    (a : Int) (hdec : decode args = .ok ra) (hF : ra.From ≠ "") (hT : ra.To = "")
    (hn : cu.DateToEpochMs ra.From = .ok a) :
    ModifiedProcessor cu decode args =
        (some (CreateRangeQuery "dateModified" cu.LowerOnly a 0), none) ∧
      normalizerCalls cu decode args = [ra.From] := by
  simp [ModifiedProcessor, normalizerCalls, traced_from_only cu decode args ra a hdec hF hT hn]

/-- C4: when both bounds are supplied and the normalizer returns `a` for `From`
and `b` for `To`, `ModifiedProcessor` succeeds with the range query of kind
`Both`, lower bound `a` and upper bound `b`; nothing is assumed about the
order of `a` and `b`. -/
theorem both_bounds (cu : ClauseUtils RangeType)
    (decode : Args → Except GoError ModifiedArgs) (args : Args) (ra : ModifiedArgs)
    (a b : Int) (hdec : decode args = .ok ra) (hF : ra.From ≠ "") (hT : ra.To ≠ "")
    (hna : cu.DateToEpochMs ra.From = .ok a) (hnb : cu.DateToEpochMs ra.To = .ok b) :
    ModifiedProcessor cu decode args =
      (some (CreateRangeQuery "dateModified" cu.Both a b), none) := by
  simp [ModifiedProcessor, traced_both_ok cu decode args ra a b hdec hF hT hna hnb]

/-- C5 (as the code has it): every range query `ModifiedProcessor` returns is
over the field `dateModified`, whatever the arguments and the range kind. -/
theorem field_is_dateModified (cu : ClauseUtils RangeType)
    (decode : Args → Except GoError ModifiedArgs) (args : Args)
    (q : RangeQuery RangeType) (hq : (ModifiedProcessor cu decode args).1 = some q) :
    q.field = "dateModified" := by
  obtain ⟨_, _, _, hfield, _⟩ := query_inv cu decode args q hq
  exact hfield

/-- C6: when the argument bag decodes and one of `From`, `To` is non-empty,
`ModifiedSummary` succeeds with the string made of `modified=`, the raw `From`,
`--` and the raw `To`. -/
theorem summary_text (decode : Args → Except GoError ModifiedArgs) (args : Args)
    (ra : ModifiedArgs) (hdec : decode args = .ok ra) (h : ra.From ≠ "" ∨ ra.To ≠ "") :
    ModifiedSummary decode args = ("modified=" ++ ra.From ++ "--" ++ ra.To, none) :=
  summary_ok decode args ra hdec h

/-- C7: the normalizer's error leaves `ModifiedProcessor` unchanged and with no
query.  If `From` is supplied and rejected with `e`, the result is `e` and
`To` never reaches the normalizer; if `From` is left out or accepted and `To`
is supplied and rejected with `e`, the result is `e`. -/
theorem normalizer_error_propagates (cu : ClauseUtils RangeType)
    (decode : Args → Except GoError ModifiedArgs) (args : Args) (ra : ModifiedArgs)
    (e : GoError) (hdec : decode args = .ok ra)
    (h : (ra.From ≠ "" ∧ cu.DateToEpochMs ra.From = .error e) ∨
      ((ra.From = "" ∨ ∃ a, cu.DateToEpochMs ra.From = .ok a) ∧
        ra.To ≠ "" ∧ cu.DateToEpochMs ra.To = .error e)) :
    ModifiedProcessor cu decode args = (none, some e) ∧
      (ra.From ≠ "" ∧ cu.DateToEpochMs ra.From = .error e →
        normalizerCalls cu decode args = [ra.From]) := by
  constructor
  · rcases h with ⟨hF, hn⟩ | ⟨hfrom, hT, hn⟩
    · rw [ModifiedProcessor, traced_from_error cu decode args ra e hdec hF hn]
    · by_cases hF : ra.From = ""
      · rw [ModifiedProcessor, traced_to_only_error cu decode args ra e hdec hF hT hn]
      · rcases hfrom with hF0 | ⟨a, hna⟩
        · exact absurd hF0 hF
        · rw [ModifiedProcessor, traced_both_to_error cu decode args ra a e hdec hF hT hna hn]
  · rintro ⟨hF, hn⟩
    rw [normalizerCalls, traced_from_error cu decode args ra e hdec hF hn]

/-- C8: `ModifiedProcessor` returns a query exactly when the arguments decode,
a bound is supplied, and the normalizer accepts every supplied bound; in every
other case it returns an error and no query. -/
theorem query_iff_valid (cu : ClauseUtils RangeType)
    (decode : Args → Except GoError ModifiedArgs) (args : Args) :
    ((∃ q, (ModifiedProcessor cu decode args).1 = some q) ↔
        ∃ ra, decode args = .ok ra ∧ (ra.From ≠ "" ∨ ra.To ≠ "") ∧
          (ra.From ≠ "" → ∃ a, cu.DateToEpochMs ra.From = .ok a) ∧
          (ra.To ≠ "" → ∃ b, cu.DateToEpochMs ra.To = .ok b)) ∧
      ((¬ ∃ ra, decode args = .ok ra ∧ (ra.From ≠ "" ∨ ra.To ≠ "") ∧
          (ra.From ≠ "" → ∃ a, cu.DateToEpochMs ra.From = .ok a) ∧
          (ra.To ≠ "" → ∃ b, cu.DateToEpochMs ra.To = .ok b)) →
        ∃ e, ModifiedProcessor cu decode args = (none, some e)) := by
  have hiff : (∃ q, (ModifiedProcessor cu decode args).1 = some q) ↔
      ∃ ra, decode args = .ok ra ∧ (ra.From ≠ "" ∨ ra.To ≠ "") ∧
        (ra.From ≠ "" → ∃ a, cu.DateToEpochMs ra.From = .ok a) ∧
        (ra.To ≠ "" → ∃ b, cu.DateToEpochMs ra.To = .ok b) := by
    constructor
    · rintro ⟨q, hq⟩
      obtain ⟨ra, hdec, hsome, _, hlo, _, hup, _, _⟩ := query_inv cu decode args q hq
      exact ⟨ra, hdec, hsome, fun h => ⟨_, hlo h⟩, fun h => ⟨_, hup h⟩⟩
    · rintro ⟨ra, hdec, hsome, hlo, hup⟩
      by_cases hF : ra.From = "" <;> by_cases hT : ra.To = ""
      · rcases hsome with h | h
        · exact absurd hF h
        · exact absurd hT h
      · obtain ⟨b, hb⟩ := hup hT
        exact ⟨_, by rw [ModifiedProcessor, traced_to_only cu decode args ra b hdec hF hT hb]⟩
      · obtain ⟨a, ha⟩ := hlo hF
        exact ⟨_, by rw [ModifiedProcessor, traced_from_only cu decode args ra a hdec hF hT ha]⟩
      · obtain ⟨a, ha⟩ := hlo hF
        obtain ⟨b, hb⟩ := hup hT
        exact ⟨_, by
          rw [ModifiedProcessor, traced_both_ok cu decode args ra a b hdec hF hT ha hb]⟩
  refine ⟨hiff, fun hno => ?_⟩
  rcases result_shape cu decode args with ⟨q, hq⟩ | he
  · exact absurd (hiff.mp ⟨q, by rw [hq]⟩) hno
  · exact he

/-- C9: whenever `ModifiedProcessor` succeeds on an argument bag,
`ModifiedSummary` succeeds on it; and for every bag with a supplied bound that
the normalizer rejects, `ModifiedProcessor` fails while `ModifiedSummary`
succeeds with the raw strings. -/
theorem summary_weaker_than_query (cu : ClauseUtils RangeType)
    (decode : Args → Except GoError ModifiedArgs) (args : Args) :
    ((∃ q, ModifiedProcessor cu decode args = (some q, none)) →
        ∃ text, ModifiedSummary decode args = (text, none)) ∧
      (∀ ra, decode args = .ok ra →
        ((ra.From ≠ "" ∧ ∃ e, cu.DateToEpochMs ra.From = .error e) ∨
          (ra.To ≠ "" ∧ ∃ e, cu.DateToEpochMs ra.To = .error e)) →
        (∃ e, ModifiedProcessor cu decode args = (none, some e)) ∧
          ModifiedSummary decode args = ("modified=" ++ ra.From ++ "--" ++ ra.To, none)) := by
  constructor
  · rintro ⟨q, hq⟩
    obtain ⟨ra, hdec, hsome, _⟩ := query_inv cu decode args q (by rw [hq])
    exact ⟨_, summary_ok decode args ra hdec hsome⟩
  · intro ra hdec hbad
    have hsome : ra.From ≠ "" ∨ ra.To ≠ "" := by
      rcases hbad with ⟨h, _⟩ | ⟨h, _⟩
      · exact Or.inl h
      · exact Or.inr h
    refine ⟨?_, summary_ok decode args ra hdec hsome⟩
    rcases result_shape cu decode args with ⟨q, hq⟩ | he
    · obtain ⟨ra2, hdec2, _, _, hlo, _, hup, _, _⟩ := query_inv cu decode args q (by rw [hq])
      have hra : ra2 = ra := by
        rw [hdec] at hdec2
        exact (Except.ok.inj hdec2).symm
      subst hra
      rcases hbad with ⟨hF, e, he⟩ | ⟨hT, e, he⟩
      · rw [hlo hF] at he
        cases he
      · rw [hup hT] at he
        cases he
    · exact he

/-- C10 (against the normalizer of the specification): a string made of an
optional sign followed by at least one digit, whose integer value fits 64
signed bits, is normalized to exactly that value, and `ModifiedProcessor` run
with that normalizer puts the value unchanged into the query it returns: as
the lower bound of a `LowerOnly` query when the string is `From` and `To` is
empty, as the upper bound when the string is `To` and `From` is empty, and as
the matching bound of a `Both` query when the other bound is accepted too; no
returned query carries another bound for that string. -/
theorem numeric_string_is_epoch (cu : ClauseUtils RangeType)
    (decode : Args → Except GoError ModifiedArgs) (args : Args) (ra : ModifiedArgs)
    (s : String) (sign ds : List Char)
    (hshape : s.data = sign ++ ds)
    (hsign : sign = [] ∨ sign = ['+'] ∨ sign = ['-'])
    (hne : ds ≠ []) (hdig : ∀ c ∈ ds, c.isDigit = true)
    (hrange : -9223372036854775808 ≤ clauseutils.integerValue sign ds ∧
      clauseutils.integerValue sign ds ≤ 9223372036854775807)
    (hcu : cu.DateToEpochMs = clauseutils.DateToEpochMs)
    (hdec : decode args = .ok ra) :
    clauseutils.DateToEpochMs s = .ok (clauseutils.integerValue sign ds) ∧
      (ra.From = s → ra.To = "" →
        ModifiedProcessor cu decode args =
          (some (CreateRangeQuery "dateModified" cu.LowerOnly
            (clauseutils.integerValue sign ds) 0), none)) ∧
      (ra.From = "" → ra.To = s →
        ModifiedProcessor cu decode args =
          (some (CreateRangeQuery "dateModified"
            (if cu.zeroRangeType = cu.LowerOnly then cu.Both else cu.UpperOnly) 0
            (clauseutils.integerValue sign ds)), none)) ∧
      (ra.From = s → ∀ b, ra.To ≠ "" → cu.DateToEpochMs ra.To = .ok b →
        ModifiedProcessor cu decode args =
          (some (CreateRangeQuery "dateModified" cu.Both
            (clauseutils.integerValue sign ds) b), none)) ∧
      (ra.To = s → ∀ a, ra.From ≠ "" → cu.DateToEpochMs ra.From = .ok a →
        ModifiedProcessor cu decode args =
          (some (CreateRangeQuery "dateModified" cu.Both a
            (clauseutils.integerValue sign ds)), none)) ∧
      (∀ q, (ModifiedProcessor cu decode args).1 = some q →
        (ra.From = s → q.lower = clauseutils.integerValue sign ds) ∧
        (ra.To = s → q.upper = clauseutils.integerValue sign ds)) := by
  have hnorm : clauseutils.DateToEpochMs s = .ok (clauseutils.integerValue sign ds) := by
    unfold clauseutils.DateToEpochMs
    rw [hshape, clauseutils.parseInt_numeric sign ds hsign hne hdig hrange]
  have hs : s ≠ "" := by
    intro h
    rw [h] at hshape
    cases sign with
    | nil => exact hne (List.nil_eq.mp hshape)
    | cons c cs => cases hshape
  have hcs : cu.DateToEpochMs s = .ok (clauseutils.integerValue sign ds) := by
    rw [hcu]
    exact hnorm
  refine ⟨hnorm, ?_, ?_, ?_, ?_, ?_⟩
  · intro hF hT
    have hF2 : ra.From ≠ "" := by rw [hF]; exact hs
    have hn : cu.DateToEpochMs ra.From = .ok (clauseutils.integerValue sign ds) := by
      rw [hF]; exact hcs
    rw [ModifiedProcessor, traced_from_only cu decode args ra _ hdec hF2 hT hn]
  · intro hF hT
    have hT2 : ra.To ≠ "" := by rw [hT]; exact hs
    have hn : cu.DateToEpochMs ra.To = .ok (clauseutils.integerValue sign ds) := by
      rw [hT]; exact hcs
    rw [ModifiedProcessor, traced_to_only cu decode args ra _ hdec hF hT2 hn]
  · intro hF b hT hb
    have hF2 : ra.From ≠ "" := by rw [hF]; exact hs
    have hn : cu.DateToEpochMs ra.From = .ok (clauseutils.integerValue sign ds) := by
      rw [hF]; exact hcs
    rw [ModifiedProcessor, traced_both_ok cu decode args ra _ b hdec hF2 hT hn hb]
  · intro hT a hF ha
    have hT2 : ra.To ≠ "" := by rw [hT]; exact hs
    have hn : cu.DateToEpochMs ra.To = .ok (clauseutils.integerValue sign ds) := by
      rw [hT]; exact hcs
    rw [ModifiedProcessor, traced_both_ok cu decode args ra a _ hdec hF hT2 ha hn]
  · intro q hq
    obtain ⟨ra2, hdec2, _, _, hlo, _, hup, _, _⟩ := query_inv cu decode args q hq
    have hra : ra2 = ra := by
      rw [hdec] at hdec2
      exact (Except.ok.inj hdec2).symm
    subst hra
    constructor
    · intro hF
      have h1 := hlo (by rw [hF]; exact hs)
      rw [hF, hcs] at h1
      exact (Except.ok.inj h1).symm
    · intro hT
      have h1 := hup (by rw [hT]; exact hs)
      rw [hT, hcs] at h1
      exact (Except.ok.inj h1).symm

end Claims

/-! ## The normalizer of the specification on the specification's examples -/

theorem normalize_bare_date_example :
    clauseutils.DateToEpochMs "2023-06-15" = .ok 1686787200000 := rfl

theorem normalize_utc_timestamp_example :
    clauseutils.DateToEpochMs "2023-06-15T10:30:00.000Z" = .ok 1686825000000 := rfl

theorem normalize_offset_timestamp_example :
    clauseutils.DateToEpochMs "2023-06-15T10:30:00.000+02:00" =
      clauseutils.DateToEpochMs "2023-06-15T08:30:00.000Z" := rfl

theorem normalize_month_out_of_range_example :
    clauseutils.DateToEpochMs "2023-13-01" = .error (GoError.parseError "2023-13-01") := rfl

theorem normalize_int64_overflow_example :
    clauseutils.DateToEpochMs "9223372036854775808" =
      .error (GoError.parseError "9223372036854775808") := rfl

/-! ## The properties at concrete inputs -/

/-- C1 at the input with both strings empty. -/
theorem both_empty_rejected_witness :
    decodeTyped ⟨"", ""⟩ = .ok ⟨"", ""⟩ ∧
      ModifiedProcessor upperFirstUtils decodeTyped ⟨"", ""⟩ =
        (none, some (errors.New "Neither from nor to was passed, cannot create clause.")) ∧
      ModifiedSummary decodeTyped ⟨"", ""⟩ =
        ("", some (errors.New "Neither from nor to was passed, cannot create clause.")) ∧
      (ModifiedProcessor upperFirstUtils decodeTyped ⟨"", ""⟩).2 =
        (ModifiedSummary decodeTyped ⟨"", ""⟩).2 :=
  ⟨rfl, both_empty_rejected upperFirstUtils decodeTyped ⟨"", ""⟩ ⟨"", ""⟩ rfl rfl rfl⟩

/-- C1 as the specification words it fails: with both strings empty, the error
of either entry point is not the one with the text
"neither from nor to was supplied". -/
theorem both_empty_message_counterexample :
    decodeTyped ⟨"", ""⟩ = .ok ⟨"", ""⟩ ∧
      (ModifiedProcessor upperFirstUtils decodeTyped ⟨"", ""⟩).2 ≠
        some (errors.New "neither from nor to was supplied") ∧
      (ModifiedSummary decodeTyped ⟨"", ""⟩).2 ≠
        some (errors.New "neither from nor to was supplied") :=
  ⟨rfl, by decide, by decide⟩

/-- C2 at `To = 2023-01-01` under a declaration whose zero value is
`UpperOnly`: the query has kind `UpperOnly`, which there is neither `Both` nor
`LowerOnly`, no lower bound, and upper bound 1672531200000. -/
theorem to_only_upper_witness :
    upperFirstUtils.zeroRangeType ≠ upperFirstUtils.LowerOnly ∧
      upperFirstUtils.UpperOnly ≠ upperFirstUtils.Both ∧
      upperFirstUtils.UpperOnly ≠ upperFirstUtils.LowerOnly ∧
      ModifiedProcessor upperFirstUtils decodeTyped ⟨"", "2023-01-01"⟩ =
        (some (CreateRangeQuery "dateModified" upperFirstUtils.UpperOnly 0 1672531200000),
          none) :=
  ⟨by decide, by decide, by decide,
    to_only_upper upperFirstUtils decodeTyped ⟨"", "2023-01-01"⟩ ⟨"", "2023-01-01"⟩
      1672531200000 rfl rfl (by decide) rfl (by decide)⟩

/-- The caveat of C2 at `To = 2023-01-01` under a declaration whose zero value
is `LowerOnly`: the query has kind `Both`. -/
theorem to_only_when_zero_is_lower_example :
    ModifiedProcessor lowerFirstUtils decodeTyped ⟨"", "2023-01-01"⟩ =
      (some (CreateRangeQuery "dateModified" lowerFirstUtils.Both 0 1672531200000), none) :=
  to_only_when_zero_is_lower lowerFirstUtils decodeTyped ⟨"", "2023-01-01"⟩
    ⟨"", "2023-01-01"⟩ 1672531200000 rfl rfl (by decide) rfl rfl

/-- C3 at `From = 2023-01-01`: kind `LowerOnly`, lower bound 1672531200000, no
upper bound, one normalizer call. -/
theorem from_only_lower_witness :
    ModifiedProcessor upperFirstUtils decodeTyped ⟨"2023-01-01", ""⟩ =
        (some (CreateRangeQuery "dateModified" upperFirstUtils.LowerOnly 1672531200000 0),
          none) ∧
      normalizerCalls upperFirstUtils decodeTyped ⟨"2023-01-01", ""⟩ = ["2023-01-01"] :=
  from_only_lower upperFirstUtils decodeTyped ⟨"2023-01-01", ""⟩ ⟨"2023-01-01", ""⟩
    1672531200000 rfl (by decide) rfl rfl

/-- C4 at `From = 2023-02-01`, `To = 2023-01-01`: the query is built with kind
`Both` although the lower bound exceeds the upper bound. -/
theorem both_bounds_witness :
    (1672531200000 : Int) < 1675209600000 ∧
      ModifiedProcessor upperFirstUtils decodeTyped ⟨"2023-02-01", "2023-01-01"⟩ =
        (some (CreateRangeQuery "dateModified" upperFirstUtils.Both
          1675209600000 1672531200000), none) :=
  ⟨by decide,
    both_bounds upperFirstUtils decodeTyped ⟨"2023-02-01", "2023-01-01"⟩
      ⟨"2023-02-01", "2023-01-01"⟩ 1675209600000 1672531200000 rfl (by decide) (by decide)
      rfl rfl⟩

/-- C5 at `From = 2023-01-01`: the field of the query is `dateModified`. -/
theorem field_is_dateModified_witness :
    (ModifiedProcessor upperFirstUtils decodeTyped ⟨"2023-01-01", ""⟩).1 =
        some (CreateRangeQuery "dateModified" upperFirstUtils.LowerOnly 1672531200000 0) ∧
      (CreateRangeQuery "dateModified" upperFirstUtils.LowerOnly 1672531200000 0).field =
        "dateModified" :=
  ⟨rfl, field_is_dateModified upperFirstUtils decodeTyped ⟨"2023-01-01", ""⟩ _ rfl⟩

/-- C5 as the specification words it fails: at `From = 2023-01-01` the query
returned is not over a field named `date-modified`. -/
theorem field_name_counterexample :
    ∃ q, (ModifiedProcessor upperFirstUtils decodeTyped ⟨"2023-01-01", ""⟩).1 = some q ∧
      q.field ≠ "date-modified" :=
  ⟨CreateRangeQuery "dateModified" upperFirstUtils.LowerOnly 1672531200000 0, rfl, by decide⟩

/-- C6 at the example of the specification. -/
theorem summary_text_witness :
    ModifiedSummary decodeTyped ⟨"2023-01-01", "2023-02-01"⟩ =
      ("modified=2023-01-01--2023-02-01", none) :=
  summary_text decodeTyped ⟨"2023-01-01", "2023-02-01"⟩ ⟨"2023-01-01", "2023-02-01"⟩ rfl
    (Or.inl (by decide))

/-- C7 at two inputs: a rejected `From` next to a `To` that would be rejected
too, and an accepted `From` next to a rejected `To`. -/
theorem normalizer_error_propagates_witness :
    (ModifiedProcessor upperFirstUtils decodeTyped ⟨"not-a-date", "neither"⟩ =
        (none, some (GoError.parseError "not-a-date")) ∧
      normalizerCalls upperFirstUtils decodeTyped ⟨"not-a-date", "neither"⟩ =
        ["not-a-date"]) ∧
      ModifiedProcessor upperFirstUtils decodeTyped ⟨"2023-01-01", "neither"⟩ =
        (none, some (GoError.parseError "neither")) := by
  have h1 := normalizer_error_propagates upperFirstUtils decodeTyped
    ⟨"not-a-date", "neither"⟩ ⟨"not-a-date", "neither"⟩
    (GoError.parseError "not-a-date") rfl (Or.inl ⟨by decide, rfl⟩)
  have h2 := normalizer_error_propagates upperFirstUtils decodeTyped
    ⟨"2023-01-01", "neither"⟩ ⟨"2023-01-01", "neither"⟩
    (GoError.parseError "neither") rfl
    (Or.inr ⟨Or.inr ⟨1672531200000, rfl⟩, by decide, rfl⟩)
  exact ⟨⟨h1.1, h1.2 ⟨by decide, rfl⟩⟩, h2.1⟩

/-- C8 at three inputs: a valid clause yields a query, an undecodable bag and
a clause with a rejected bound yield an error and no query. -/
theorem query_iff_valid_examples :
    (∃ q, (ModifiedProcessor upperFirstUtils decodeTyped ⟨"2023-01-01", "17"⟩).1 = some q) ∧
      ModifiedProcessor upperFirstUtils decodeFailing ⟨"2023-01-01", "17"⟩ =
        (none, some (GoError.decodeError "expected type string: 2023-01-01")) ∧
      ModifiedProcessor upperFirstUtils decodeTyped ⟨"2023-01-01", "2023-13-01"⟩ =
        (none, some (GoError.parseError "2023-13-01")) :=
  ⟨⟨_, rfl⟩, rfl, rfl⟩

/-- C9 at the example of the specification: with `From = not-a-date` the query
path fails with the parse error and the summary path succeeds. -/
theorem summary_weaker_than_query_witness :
    ModifiedProcessor upperFirstUtils decodeTyped ⟨"not-a-date", ""⟩ =
        (none, some (GoError.parseError "not-a-date")) ∧
      (∃ e, ModifiedProcessor upperFirstUtils decodeTyped ⟨"not-a-date", ""⟩ =
        (none, some e)) ∧
      ModifiedSummary decodeTyped ⟨"not-a-date", ""⟩ = ("modified=not-a-date--", none) :=
  ⟨rfl,
    (summary_weaker_than_query upperFirstUtils decodeTyped ⟨"not-a-date", ""⟩).2
      ⟨"not-a-date", ""⟩ rfl (Or.inl ⟨by decide, GoError.parseError "not-a-date", rfl⟩)⟩

/-- C10 at the string `-1700000000000`: the normalizer returns -1700000000000,
and `ModifiedProcessor` returns the `LowerOnly` query bounded below at that
value when the string is `From`, the `UpperOnly` query bounded above at it
when the string is `To`, and the `Both` query bounded at it on both sides when
it is both. -/
theorem numeric_string_is_epoch_witness :
    clauseutils.DateToEpochMs "-1700000000000" = .ok (-1700000000000) ∧
      ModifiedProcessor upperFirstUtils decodeTyped ⟨"-1700000000000", ""⟩ =
        (some (CreateRangeQuery "dateModified" upperFirstUtils.LowerOnly
          (-1700000000000) 0), none) ∧
      ModifiedProcessor upperFirstUtils decodeTyped ⟨"", "-1700000000000"⟩ =
        (some (CreateRangeQuery "dateModified" upperFirstUtils.UpperOnly 0
          (-1700000000000)), none) ∧
      ModifiedProcessor upperFirstUtils decodeTyped ⟨"-1700000000000", "-1700000000000"⟩ =
        (some (CreateRangeQuery "dateModified" upperFirstUtils.Both
          (-1700000000000) (-1700000000000)), none) := by
  have hv : clauseutils.integerValue ['-'] "1700000000000".data = -1700000000000 := by
    decide
  have h1 := numeric_string_is_epoch upperFirstUtils decodeTyped
    ⟨"-1700000000000", ""⟩ ⟨"-1700000000000", ""⟩ "-1700000000000" ['-']
    "1700000000000".data rfl (Or.inr (Or.inr rfl)) (by decide) (by decide) (by decide)
    rfl rfl
  have h2 := numeric_string_is_epoch upperFirstUtils decodeTyped
    ⟨"", "-1700000000000"⟩ ⟨"", "-1700000000000"⟩ "-1700000000000" ['-']
    "1700000000000".data rfl (Or.inr (Or.inr rfl)) (by decide) (by decide) (by decide)
    rfl rfl
  have h3 := numeric_string_is_epoch upperFirstUtils decodeTyped
    ⟨"-1700000000000", "-1700000000000"⟩ ⟨"-1700000000000", "-1700000000000"⟩
    "-1700000000000" ['-'] "1700000000000".data rfl (Or.inr (Or.inr rfl)) (by decide)
    (by decide) (by decide) rfl rfl
  rw [hv] at h1 h2 h3
  exact ⟨h1.1, h1.2.1 rfl rfl, h2.2.2.1 rfl rfl,
    h3.2.2.2.1 rfl (-1700000000000) (by decide) rfl⟩

end Modified
